import Mathlib

/-!
Verification of the game-todo-list program: a shallow embedding of
src/game-todo-list.cc together with proofs of the specified properties.
The program is a small Windows overlay utility; its observable behavior
is embedded as pure functions from oracles (environment variable
contents, OS call outcomes, delivered messages) to event traces.
-/

namespace GameTodoList

/-- Character classification used by the C library function atoi in the
C locale: the standard whitespace characters (space, tab, newline,
vertical tab, form feed, carriage return), identified by code point. -/
def isSpaceC (c : Char) : Bool :=
  c.toNat = 32 || c.toNat = 9 || c.toNat = 10 ||
  c.toNat = 11 || c.toNat = 12 || c.toNat = 13

/-- Decimal digit test by code point, as in the C locale. -/
def isDigitC (c : Char) : Bool :=
  48 ≤ c.toNat && c.toNat ≤ 57

/-- Numeric value of a decimal digit character. -/
def digitVal (c : Char) : Nat :=
  c.toNat - 48

/-- Accumulating decimal evaluation loop of atoi: consume leading
digits, stopping at the first non-digit character. -/
def digitsVal : List Char → Nat → Nat
  | [], acc => acc
  | c :: cs, acc =>
    if isDigitC c then digitsVal cs (acc * 10 + digitVal c) else acc

/-- Sign handling of atoi, applied after whitespace removal: an
optional single sign character followed by the digit evaluation loop. -/
def atoiSigned : List Char → Int
  | [] => 0
  | c :: rest =>
    if c = '-' then -(digitsVal rest 0 : Int)
    else if c = '+' then (digitsVal rest 0 : Int)
    else (digitsVal (c :: rest) 0 : Int)

/-- Modelled from the C standard library, which is not part of the
repository: atoi as called at src/game-todo-list.cc line 225.  It skips
leading whitespace, accepts an optional sign, evaluates the longest
leading run of decimal digits, and yields 0 when no digits are present.
Mathematical integers stand in for the machine int; the traced levels
in actual use are tiny, so overflow is irrelevant to the claims. -/
def atoi (s : List Char) : Int :=
  atoiSigned (s.dropWhile isSpaceC)

/-- envIntOr from src/game-todo-list.cc lines 222-230: when the
environment variable is set (some value), its value converted with
atoi; otherwise the given default. -/
def envIntOr (value : Option (List Char)) (defaultValue : Int) : Int :=
  match value with
  | some v => atoi v
  | none => defaultValue

/-- The tracing level computed at startup (line 241): the TRACE
environment variable parsed with default 1. -/
def tracingLevelFor (traceVar : Option (List Char)) : Int :=
  envIntOr traceVar 1

/-- The TRACE macro condition (lines 32-35): a diagnostic message at a
given level is written exactly when the tracing level is at least that
level. -/
def traceEmits (tracingLevel level : Int) : Bool :=
  decide (level ≤ tracingLevel)

/-- Decimal digit string of a natural number, fuel-indexed so that the
definition is structural; fuel n + 1 always suffices for n. -/
def natDigitsAux : Nat → Nat → List Char
  | 0, _ => []
  | fuel + 1, n =>
    if n < 10 then [Char.ofNat (48 + n)]
    else natDigitsAux fuel (n / 10) ++ [Char.ofNat (48 + n % 10)]

/-- Canonical decimal digit string of a natural number. -/
def natDigits (n : Nat) : List Char :=
  natDigitsAux (n + 1) n

/-- Canonical decimal string of an integer, a leading minus sign for
negative values. -/
def intToChars (n : Int) : List Char :=
  if n < 0 then '-' :: natDigits n.natAbs else natDigits n.toNat

/-- Names of the graphics OS calls made by GTLMainWindow::captureScreen
(src/game-todo-list.cc lines 56-107) and GTLMainWindow::onPaint
(lines 110-127). -/
inductive ApiName
  | getDCScreen
  | getDCWindow
  | createCompatibleDC
  | getClientRect
  | createCompatibleBitmap
  | selectObject
  | setStretchBltMode
  | stretchBlt
  | bitBlt
  | beginPaint
  | fillRect
  | textOut
  | endPaint
deriving DecidableEq

/-- The handles owned by one captureScreen invocation, in acquisition
order: the screen device context, the window device context, the
compatible memory device context, the off-screen bitmap, and the
previously-selected-object state saved by SELECT_RESTORE_OBJECT. -/
inductive Handle
  | hdcScreen
  | hdcWindow
  | hdcMemDC
  | hbmScreenshot
  | selectedState
deriving DecidableEq

/-- A RECT as filled in by GetClientRect. -/
structure Rect where
  left : Int
  top : Int
  right : Int
  bottom : Int
deriving DecidableEq

def rectWidth (r : Rect) : Int := r.right - r.left

def rectHeight (r : Rect) : Int := r.bottom - r.top

/-- One observable event of the graphics embedding.  A call event
records a fallible OS call together with the success of its return
value; an uncheckedCall records a call whose return value the code
ignores; report stands for the level-1 diagnostic failure trace
written by the CALL_ macros; acquire and release track handle
ownership; the remaining events record the pixel-moving calls with
their size arguments. -/
inductive CEvent
  | call (a : ApiName) (ok : Bool)
  | uncheckedCall (a : ApiName)
  | report
  | acquire (h : Handle)
  | release (h : Handle)
  | allocBitmap (w h : Int)
  | blitStretch (wDest hDest wSrc hSrc : Int)
  | blitPlain (w h : Int)
deriving DecidableEq

/-- Oracle for one captureScreen invocation: the success of each
fallible OS call, the client rectangle reported by GetClientRect, and
the primary screen metrics reported by GetSystemMetrics. -/
structure CaptureEnv where
  okGetDCScreen : Bool
  okGetDCWindow : Bool
  okCreateCompatibleDC : Bool
  okGetClientRect : Bool
  rcClient : Rect
  okCreateCompatibleBitmap : Bool
  okSelectObject : Bool
  okStretchBlt : Bool
  okBitBlt : Bool
  screenW : Int
  screenH : Int
deriving DecidableEq

/-- Modelled from the spec: the CALL_HANDLE_WINAPI / GET_AND_RELEASE_HDC
macros and the scope-exit wrappers (GDIObjectDeleter,
SELECT_RESTORE_OBJECT) live in winapi-util.h, which is not under src/.
Per the spec, a failed call is reported through the level-1 diagnostic
trace and aborts the operation, and each scope-exit wrapper releases
its handle on every exit path.  acquireStep is one acquiring call: on
success the handle is acquired, the continuation runs, and the handle
is released at scope exit; on failure the operation stops after the
report. -/
def acquireStep (a : ApiName) (h : Handle) (ok : Bool)
    (rest : List CEvent) : List CEvent :=
  CEvent.call a ok ::
    (if ok then CEvent.acquire h :: (rest ++ [CEvent.release h])
     else [CEvent.report])

/-- Modelled from the spec: a checked, non-acquiring call
(CALL_BOOL_WINAPI); on failure it reports and aborts the operation. -/
def callStep (a : ApiName) (ok : Bool) (rest : List CEvent) : List CEvent :=
  CEvent.call a ok :: (if ok then rest else [CEvent.report])

/-- GTLMainWindow::captureScreen (lines 56-107) as an event trace:
acquire the screen and window device contexts and a compatible memory
context, query the client rectangle, create a compatible bitmap sized
to that rectangle and select it into the memory context, set the
stretch mode (return value ignored, per the comment at lines 82-83),
stretch-copy the whole primary screen into the memory context, then
plain-copy the memory context onto the window. -/
def captureScreen (env : CaptureEnv) : List CEvent :=
  acquireStep .getDCScreen .hdcScreen env.okGetDCScreen
    (acquireStep .getDCWindow .hdcWindow env.okGetDCWindow
      (acquireStep .createCompatibleDC .hdcMemDC env.okCreateCompatibleDC
        (callStep .getClientRect env.okGetClientRect
          (CEvent.allocBitmap (rectWidth env.rcClient) (rectHeight env.rcClient) ::
            acquireStep .createCompatibleBitmap .hbmScreenshot
              env.okCreateCompatibleBitmap
              (acquireStep .selectObject .selectedState env.okSelectObject
                (CEvent.uncheckedCall .setStretchBltMode ::
                 CEvent.blitStretch env.rcClient.right env.rcClient.bottom
                   env.screenW env.screenH ::
                   callStep .stretchBlt env.okStretchBlt
                     (CEvent.blitPlain env.rcClient.right env.rcClient.bottom ::
                       callStep .bitBlt env.okBitBlt [])))))))

/-- The all-success capture oracle for a given client rectangle and
screen metrics. -/
def allOkCaptureEnv (rc : Rect) (sw sh : Int) : CaptureEnv :=
  ⟨true, true, true, true, rc, true, true, true, true, sw, sh⟩

/-- Oracle for one onPaint invocation. -/
structure PaintEnv where
  okBeginPaint : Bool
  okFillRect : Bool
  okSelectFont : Bool
  okTextOut : Bool
deriving DecidableEq

/-- GTLMainWindow::onPaint (lines 110-127) as an event trace.
BeginPaint, the font SelectObject and TextOut go through the checked
CALL_ macros; the FillRect return value, which can signal failure, is
ignored by the code at line 118, and EndPaint (documented by the
platform to always succeed) is likewise unchecked.  A failure of a
checked call aborts the handler, so EndPaint is reached only when
everything before it succeeded, while the saved selected-object state
is restored by scope exit on every path after its acquisition. -/
def onPaint (env : PaintEnv) : List CEvent :=
  if !env.okBeginPaint then [CEvent.call .beginPaint false, CEvent.report]
  else
    CEvent.call .beginPaint true ::
    CEvent.call .fillRect env.okFillRect ::
    (if !env.okSelectFont then [CEvent.call .selectObject false, CEvent.report]
     else
       CEvent.call .selectObject true ::
       CEvent.acquire .selectedState ::
       (if !env.okTextOut then
          [CEvent.call .textOut false, CEvent.report,
           CEvent.release .selectedState]
        else
          [CEvent.call .textOut true, CEvent.release .selectedState,
           CEvent.uncheckedCall .endPaint]))

/-- Run a trace against a stack of live handles: acquisitions push,
and every release must match the most recently acquired live handle
(none means the trace violated the stack discipline). -/
def runStack : List CEvent → List Handle → Option (List Handle)
  | [], st => some st
  | CEvent.acquire h :: rest, st => runStack rest (h :: st)
  | CEvent.release h :: rest, st =>
    match st with
    | [] => none
    | h2 :: st2 => if h = h2 then runStack rest st2 else none
  | _ :: rest, st => runStack rest st

/-- The handles acquired in a trace, in order. -/
def acquiresOf : List CEvent → List Handle
  | [] => []
  | CEvent.acquire h :: rest => h :: acquiresOf rest
  | _ :: rest => acquiresOf rest

/-- The handles released in a trace, in order. -/
def releasesOf : List CEvent → List Handle
  | [] => []
  | CEvent.release h :: rest => h :: releasesOf rest
  | _ :: rest => releasesOf rest

/-- Is this event a fallible call that returned failure? -/
def isFailedCall : CEvent → Bool
  | CEvent.call _ ok => !ok
  | _ => false

/-- Is this event a level-1 diagnostic failure report? -/
def isReport : CEvent → Bool
  | CEvent.report => true
  | _ => false

/-- Is this event an ignored-return call other than SetStretchBltMode? -/
def isBadUnchecked : CEvent → Bool
  | CEvent.uncheckedCall ApiName.setStretchBltMode => false
  | CEvent.uncheckedCall _ => true
  | _ => false

/-- Is this event a failing call among those onPaint checks through the
CALL_ macros (everything except the ignored FillRect and EndPaint
returns)? -/
def isFailedCheckedPaint : CEvent → Bool
  | CEvent.call ApiName.fillRect _ => false
  | CEvent.call _ ok => !ok
  | _ => false

def countFailed (tr : List CEvent) : Nat := tr.countP (fun e => isFailedCall e)

def countReports (tr : List CEvent) : Nat := tr.countP (fun e => isReport e)

/-- Hotkey identifiers (lines 46-47) and key codes used by the
program: the virtual-key codes of F5 (0x74) and the up arrow (0x26),
and the Q key (its ASCII code, as compared at line 149). -/
def HOTKEY_ID_F5 : Int := 1

def HOTKEY_ID_UP : Int := 2

def VK_F5 : Int := 116

def VK_UP : Int := 38

def KEY_Q : Int := 81

/-- The window messages the program distinguishes (the switch at lines
164-214), plus the quit message produced by PostQuitMessage and a
catch-all for every other message code. -/
inductive Msg
  | wmCreate
  | wmDestroy
  | wmPaint
  | wmClose
  | wmQuit (code : Int)
  | wmHotKey (id fsModifiers vk : Int)
  | wmKeyDown (wParam lParam : Int)
  | other (uMsg wParam lParam : Int)
deriving DecidableEq

/-- Observable actions of the window controller embedding. -/
inductive WEvent
  | traceCall (level : Int)
  | setIcon
  | registerHotKey (id vk : Int)
  | unregisterHotKey (id : Int)
  | postMsg (m : Msg)
  | postQuit (code : Int)
  | invokeCapture
  | paint
  | destroyWindow
deriving DecidableEq

/-- The program-owned window state the claims speak about: the set of
hotkey identifiers currently registered for the window (a list, in
registration order). -/
structure WindowState where
  hotkeys : List Int
deriving DecidableEq

/-- Outcome of GTLMainWindow::handleMessage for one message: either
handled with an LRESULT, or left for BaseWindow default handling. -/
inductive HandlerResult
  | handled (ret : Int)
  | fallthrough
deriving DecidableEq

/-- Oracle for the hotkey registration and unregistration calls. -/
structure MsgEnv where
  okRegisterF5 : Bool
  okRegisterUp : Bool
  okUnregisterF5 : Bool
  okUnregisterUp : Bool
deriving DecidableEq

def allOkMsgEnv : MsgEnv := ⟨true, true, true, true⟩

/-- GTLMainWindow::onHotKey (lines 130-140): log the event at level 2,
then invoke the capture operation exactly when the identifier is the
F5 hotkey id; the modifier and key arguments influence nothing but the
logged text. -/
def onHotKey (id fsModifiers vk : Int) : List WEvent :=
  WEvent.traceCall 2 ::
    (if id = HOTKEY_ID_F5 then [WEvent.invokeCapture] else [])

/-- GTLMainWindow::onKeyDown (lines 143-158): log the event at level 2;
on Q, log again, post a close message to the own window and consume the
event (true); any other key is left unhandled (false). -/
def onKeyDown (wParam lParam : Int) : Bool × List WEvent :=
  if wParam = KEY_Q then
    (true, [WEvent.traceCall 2, WEvent.traceCall 2, WEvent.postMsg Msg.wmClose])
  else
    (false, [WEvent.traceCall 2])

/-- GTLMainWindow::handleMessage (lines 161-217).  Creation sets the
icon and registers the two hotkeys (ids 1 and 2, bound to F5 and the
up arrow, no modifiers); destruction logs, unregisters both ids and
posts the quit message; paint and hotkey messages go to their
handlers; a key-down message is consumed only when onKeyDown consumed
it; everything else falls through to BaseWindow default handling.  Per
the spec, a failed registration call is reported at level 1 and aborts
the rest of the handler (the CALL_ macros are in winapi-util.h, which
is not under src/). -/
def handleMessage (env : MsgEnv) (st : WindowState) (m : Msg) :
    WindowState × HandlerResult × List WEvent :=
  match m with
  | Msg.wmCreate =>
    if env.okRegisterF5 then
      if env.okRegisterUp then
        (⟨st.hotkeys ++ [HOTKEY_ID_F5, HOTKEY_ID_UP]⟩, HandlerResult.handled 0,
         [WEvent.setIcon, WEvent.registerHotKey HOTKEY_ID_F5 VK_F5,
          WEvent.registerHotKey HOTKEY_ID_UP VK_UP])
      else
        (⟨st.hotkeys ++ [HOTKEY_ID_F5]⟩, HandlerResult.handled 0,
         [WEvent.setIcon, WEvent.registerHotKey HOTKEY_ID_F5 VK_F5,
          WEvent.traceCall 1])
    else
      (st, HandlerResult.handled 0, [WEvent.setIcon, WEvent.traceCall 1])
  | Msg.wmDestroy =>
    if env.okUnregisterF5 then
      if env.okUnregisterUp then
        (⟨(st.hotkeys.erase HOTKEY_ID_F5).erase HOTKEY_ID_UP⟩,
         HandlerResult.handled 0,
         [WEvent.traceCall 2, WEvent.unregisterHotKey HOTKEY_ID_F5,
          WEvent.unregisterHotKey HOTKEY_ID_UP, WEvent.postQuit 0])
      else
        (⟨st.hotkeys.erase HOTKEY_ID_F5⟩, HandlerResult.handled 0,
         [WEvent.traceCall 2, WEvent.unregisterHotKey HOTKEY_ID_F5,
          WEvent.traceCall 1])
    else
      (st, HandlerResult.handled 0, [WEvent.traceCall 2, WEvent.traceCall 1])
  | Msg.wmPaint => (st, HandlerResult.handled 0, [WEvent.paint])
  | Msg.wmHotKey id fs vk => (st, HandlerResult.handled 0, onHotKey id fs vk)
  | Msg.wmKeyDown w l =>
    let r := onKeyDown w l
    (st, if r.1 then HandlerResult.handled 0 else HandlerResult.fallthrough, r.2)
  | _ => (st, HandlerResult.fallthrough, [])

/-- The hotkey registrations performed in a trace, as (id, key) pairs
in order. -/
def registrationsOf : List WEvent → List (Int × Int)
  | [] => []
  | WEvent.registerHotKey id vk :: rest => (id, vk) :: registrationsOf rest
  | _ :: rest => registrationsOf rest

/-- The hotkey unregistrations performed in a trace, in order. -/
def unregistrationsOf : List WEvent → List Int
  | [] => []
  | WEvent.unregisterHotKey id :: rest => id :: unregistrationsOf rest
  | _ :: rest => unregistrationsOf rest

/-- Modelled from the spec: BaseWindow::handleMessage (winapi-util.h,
not under src/) forwards unhandled messages to the system default
window procedure.  For a close request, the default destroys the
window, which delivers the destruction message to the handler
synchronously; other unhandled messages have no program-visible
effect. -/
def dispatchOne (env : MsgEnv) (st : WindowState) (m : Msg) :
    WindowState × List WEvent :=
  match handleMessage env st m with
  | (st1, HandlerResult.handled _, evs) => (st1, evs)
  | (st1, HandlerResult.fallthrough, evs) =>
    match m with
    | Msg.wmClose =>
      match handleMessage env st1 Msg.wmDestroy with
      | (st2, _, evs2) => (st2, evs ++ WEvent.destroyWindow :: evs2)
    | _ => (st1, evs)

/-- The messages a handler run places into the queue: PostMessage
posts its message, PostQuitMessage queues the quit message. -/
def postedOf : List WEvent → List Msg
  | [] => []
  | WEvent.postMsg m :: rest => m :: postedOf rest
  | WEvent.postQuit c :: rest => Msg.wmQuit c :: postedOf rest
  | _ :: rest => postedOf rest

def isQuitMsg : Msg → Bool
  | Msg.wmQuit _ => true
  | _ => false

/-- Modelled from the spec: the blocking message loop of wWinMain
(lines 259-263) retrieves one queued message at a time and dispatches
it; retrieving the quit message ends the loop and wWinMain returns 0.
Fuel bounds the iterations so that the model is total; exhausted fuel
or an empty queue leaves the loop still running (no exit code yet). -/
def runLoop (env : MsgEnv) :
    Nat → WindowState → List Msg → WindowState × List WEvent × Option Int
  | 0, st, _ => (st, [], none)
  | _ + 1, st, [] => (st, [], none)
  | fuel + 1, st, m :: rest =>
    if isQuitMsg m then (st, [], some 0)
    else
      let d := dispatchOne env st m
      let r := runLoop env fuel d.1 (rest ++ postedOf d.2)
      (r.1, d.2 ++ r.2.1, r.2.2)

/-- The tail of wWinMain (lines 259-266): the loop runs while
GetMessage returns a positive value (0 signals the quit message, -1
signals an error; both end the loop), after which wWinMain returns 0.
The argument abstracts the successive GetMessage return values. -/
def wWinMainExitCode (getMessageResults : List Int) : Int :=
  match getMessageResults with
  | [] => 0
  | r :: rest => if 0 < r then wWinMainExitCode rest else 0

theorem digit_char_spec (d : Nat) (hd : d < 10) :
    isDigitC (Char.ofNat (48 + d)) = true ∧ digitVal (Char.ofNat (48 + d)) = d := by
  interval_cases d <;> exact ⟨by decide, by decide⟩

theorem natDigitsAux_all_digits (fuel : Nat) :
    ∀ n, n < fuel → ∀ c ∈ natDigitsAux fuel n, isDigitC c = true := by
  induction fuel with
  | zero => intro n hn; omega
  | succ fuel ih =>
    intro n _ c hc
    simp only [natDigitsAux] at hc
    by_cases h10 : n < 10
    · rw [if_pos h10] at hc
      simp only [List.mem_singleton] at hc
      subst hc
      exact (digit_char_spec n h10).1
    · rw [if_neg h10] at hc
      rcases List.mem_append.mp hc with h1 | h1
      · exact ih (n / 10) (by omega) c h1
      · simp only [List.mem_singleton] at h1
        subst h1
        exact (digit_char_spec (n % 10) (by omega)).1

theorem digitsVal_append_digits (xs ys : List Char) (acc : Nat)
    (hxs : ∀ c ∈ xs, isDigitC c = true) :
    digitsVal (xs ++ ys) acc = digitsVal ys (digitsVal xs acc) := by
  induction xs generalizing acc with
  | nil => rfl
  | cons c cs ih =>
    have hc : isDigitC c = true := hxs c (List.mem_cons_self c cs)
    simp only [List.cons_append, digitsVal, hc, if_true]
    exact ih _ (fun d hd => hxs d (List.mem_cons_of_mem c hd))

theorem digitsVal_natDigitsAux (fuel : Nat) :
    ∀ n, n < fuel → ∀ acc,
      digitsVal (natDigitsAux fuel n) acc =
        acc * 10 ^ (natDigitsAux fuel n).length + n := by
  induction fuel with
  | zero => intro n hn; omega
  | succ fuel ih =>
    intro n hn acc
    by_cases h10 : n < 10
    · simp only [natDigitsAux, if_pos h10]
      have h1 := digit_char_spec n h10
      simp [digitsVal, h1.1, h1.2]
    · simp only [natDigitsAux, if_neg h10]
      have hall := natDigitsAux_all_digits fuel (n / 10) (by omega)
      rw [digitsVal_append_digits _ _ _ hall]
      rw [ih (n / 10) (by omega)]
      have hd := digit_char_spec (n % 10) (by omega)
      simp only [digitsVal, hd.1, if_true, hd.2, List.length_append,
        List.length_singleton]
      calc (acc * 10 ^ (natDigitsAux fuel (n / 10)).length + n / 10) * 10 + n % 10
          = acc * (10 ^ (natDigitsAux fuel (n / 10)).length * 10) +
              (10 * (n / 10) + n % 10) := by ring
        _ = acc * 10 ^ ((natDigitsAux fuel (n / 10)).length + 1) + n := by
            rw [Nat.div_add_mod, pow_succ]

theorem natDigits_ne_nil (m : Nat) : natDigits m ≠ [] := by
  simp only [natDigits, natDigitsAux]
  by_cases h : m < 10 <;> simp [h]

theorem digitsVal_natDigits (m : Nat) :
    digitsVal (natDigits m) 0 = m := by
  have := digitsVal_natDigitsAux (m + 1) m (Nat.lt_succ_self m) 0
  simpa [natDigits] using this

theorem natDigits_all_digits (m : Nat) :
    ∀ c ∈ natDigits m, isDigitC c = true :=
  natDigitsAux_all_digits (m + 1) m (Nat.lt_succ_self m)

theorem digit_not_special (c : Char) (h : isDigitC c = true) :
    isSpaceC c = false ∧ c ≠ '-' ∧ c ≠ '+' := by
  simp only [isDigitC, Bool.and_eq_true, decide_eq_true_eq] at h
  refine ⟨?_, ?_, ?_⟩
  · simp only [isSpaceC, Bool.or_eq_false_iff, decide_eq_false_iff_not]
    omega
  · intro heq
    rw [heq] at h
    have hv : ('-').toNat = 45 := by decide
    omega
  · intro heq
    rw [heq] at h
    have hv : ('+').toNat = 43 := by decide
    omega

theorem dropWhile_cons_false {p : Char → Bool} (c : Char) (l : List Char)
    (hc : p c = false) : (c :: l).dropWhile p = c :: l := by
  simp [List.dropWhile, hc]

theorem atoi_natDigits (m : Nat) : atoi (natDigits m) = (m : Int) := by
  obtain ⟨c, cs, hnd⟩ : ∃ c cs, natDigits m = c :: cs := by
    cases h : natDigits m with
    | nil => exact absurd h (natDigits_ne_nil m)
    | cons c cs => exact ⟨c, cs, rfl⟩
  have hcd : isDigitC c = true := by
    apply natDigits_all_digits m
    rw [hnd]
    exact List.mem_cons_self c cs
  obtain ⟨hsp, hminus, hplus⟩ := digit_not_special c hcd
  rw [hnd]
  rw [atoi.eq_def, dropWhile_cons_false c cs hsp]
  simp only [atoiSigned]
  rw [if_neg hminus, if_neg hplus]
  have hv : digitsVal (c :: cs) 0 = m := by
    rw [← hnd]
    exact digitsVal_natDigits m
  rw [hv]

theorem atoi_intToChars (n : Int) : atoi (intToChars n) = n := by
  by_cases hn : n < 0
  · simp only [intToChars, if_pos hn]
    have hsp : isSpaceC '-' = false := by decide
    rw [atoi.eq_def, dropWhile_cons_false '-' (natDigits n.natAbs) hsp]
    simp [atoiSigned]
    rw [digitsVal_natDigits]
    omega
  · simp only [intToChars, if_neg hn]
    rw [atoi_natDigits]
    omega

theorem digitsVal_no_digits (l : List Char) (acc : Nat)
    (h : ∀ c ∈ l, isDigitC c = false) : digitsVal l acc = acc := by
  cases l with
  | nil => rfl
  | cons c cs =>
    have hc : isDigitC c = false := h c (List.mem_cons_self c cs)
    simp [digitsVal, hc]

theorem mem_of_mem_dropWhile {p : Char → Bool} :
    ∀ (l : List Char) (c : Char), c ∈ l.dropWhile p → c ∈ l := by
  intro l
  induction l with
  | nil => intro c hc; simp [List.dropWhile] at hc
  | cons a l ih =>
    intro c hc
    simp only [List.dropWhile] at hc
    cases hpa : p a with
    | true =>
      rw [hpa] at hc
      exact List.mem_cons_of_mem a (ih c hc)
    | false =>
      rw [hpa] at hc
      exact hc

theorem atoi_no_digits (s : List Char)
    (h : ∀ c ∈ s, isDigitC c = false) : atoi s = 0 := by
  rw [atoi.eq_def]
  cases hdw : s.dropWhile isSpaceC with
  | nil => rfl
  | cons c rest =>
    have hrest : ∀ d ∈ rest, isDigitC d = false := by
      intro d hd
      apply h
      apply mem_of_mem_dropWhile (p := isSpaceC) s
      rw [hdw]
      exact List.mem_cons_of_mem c hd
    have hall : ∀ d ∈ c :: rest, isDigitC d = false := by
      intro d hd
      apply h
      apply mem_of_mem_dropWhile (p := isSpaceC) s
      rw [hdw]
      exact hd
    simp only [atoiSigned]
    rw [digitsVal_no_digits rest 0 hrest]
    rw [digitsVal_no_digits (c :: rest) 0 hall]
    simp

/-- Claim C1, counterexample: the TRACE value abc does not parse as an
integer, yet the computed tracing level is atoi result 0, not the
documented default 1. -/
theorem envIntOr_nonnumeric_ne_default :
    envIntOr (some ['a', 'b', 'c']) 1 ≠ 1 := by decide

/-- Claim C1 (amended): for every TRACE value given as the canonical
decimal string of an integer, the tracing level is exactly that
integer; for an absent variable it is the default 1; but for a value
containing no digits the level is the atoi result 0, not the default. -/
theorem envIntOr_atoi_semantics :
    (∀ n : Int, envIntOr (some (intToChars n)) 1 = n) ∧
    envIntOr none 1 = 1 ∧
    (∀ s : List Char, (∀ c ∈ s, isDigitC c = false) →
      envIntOr (some s) 1 = 0) := by
  refine ⟨?_, rfl, ?_⟩
  · intro n
    exact atoi_intToChars n
  · intro s hs
    exact atoi_no_digits s hs

theorem envIntOr_atoi_semantics_witness :
    envIntOr (some (intToChars 7)) 1 = 7 ∧ envIntOr (some ['x']) 1 = 0 :=
  ⟨envIntOr_atoi_semantics.1 7,
   envIntOr_atoi_semantics.2.2 ['x'] (by decide)⟩

/-- Claim C10: a TRACE value whose atoi parse is zero or negative (in
particular every digit-free string parses to 0) becomes the tracing
level unchanged, and then no diagnostic message at any positive level
(the program only uses levels 1, 2 and 3) is emitted, including the
level-1 API failure reports. -/
theorem nonpositive_trace_silent :
    (∀ s : List Char, atoi s ≤ 0 →
      tracingLevelFor (some s) = atoi s ∧
      ∀ level : Int, 1 ≤ level →
        traceEmits (tracingLevelFor (some s)) level = false) ∧
    (∀ s : List Char, (∀ c ∈ s, isDigitC c = false) → atoi s = 0) := by
  constructor
  · intro s hs
    refine ⟨rfl, ?_⟩
    intro level hl
    simp only [traceEmits, tracingLevelFor, envIntOr, decide_eq_false_iff_not]
    omega
  · intro s hs
    exact atoi_no_digits s hs

theorem runStack_append (xs ys : List CEvent) (st : List Handle) :
    runStack (xs ++ ys) st =
      match runStack xs st with
      | some st2 => runStack ys st2
      | none => none := by
  induction xs generalizing st with
  | nil => rfl
  | cons e rest ih =>
    cases e with
    | acquire h => simpa [runStack] using ih (h :: st)
    | release h =>
      cases st with
      | nil => simp [runStack]
      | cons h2 st2 =>
        by_cases heq : h = h2
        · simpa [runStack, heq] using ih st2
        · simp [runStack, heq]
    | call a ok => simpa [runStack] using ih st
    | uncheckedCall a => simpa [runStack] using ih st
    | report => simpa [runStack] using ih st
    | allocBitmap w hh => simpa [runStack] using ih st
    | blitStretch a b c d => simpa [runStack] using ih st
    | blitPlain a b => simpa [runStack] using ih st

theorem runStack_acquireStep (a : ApiName) (h : Handle) (ok : Bool)
    (rest : List CEvent) (hrest : ∀ s, runStack rest s = some s)
    (st : List Handle) :
    runStack (acquireStep a h ok rest) st = some st := by
  cases ok with
  | false => rfl
  | true =>
    show runStack (rest ++ [CEvent.release h]) (h :: st) = some st
    rw [runStack_append, hrest]
    simp [runStack]

theorem runStack_callStep (a : ApiName) (ok : Bool)
    (rest : List CEvent) (hrest : ∀ s, runStack rest s = some s)
    (st : List Handle) :
    runStack (callStep a ok rest) st = some st := by
  cases ok with
  | false => rfl
  | true => exact hrest st

theorem runStack_captureScreen (env : CaptureEnv) (st : List Handle) :
    runStack (captureScreen env) st = some st := by
  refine runStack_acquireStep _ _ _ _ (fun s1 => ?_) st
  refine runStack_acquireStep _ _ _ _ (fun s2 => ?_) s1
  refine runStack_acquireStep _ _ _ _ (fun s3 => ?_) s2
  refine runStack_callStep _ _ _ (fun s4 => ?_) s3
  show runStack
    (acquireStep .createCompatibleBitmap .hbmScreenshot
      env.okCreateCompatibleBitmap
      (acquireStep .selectObject .selectedState env.okSelectObject
        (CEvent.uncheckedCall .setStretchBltMode ::
         CEvent.blitStretch env.rcClient.right env.rcClient.bottom
           env.screenW env.screenH ::
           callStep .stretchBlt env.okStretchBlt
             (CEvent.blitPlain env.rcClient.right env.rcClient.bottom ::
               callStep .bitBlt env.okBitBlt [])))) s4 = some s4
  refine runStack_acquireStep _ _ _ _ (fun s5 => ?_) s4
  refine runStack_acquireStep _ _ _ _ (fun s6 => ?_) s5
  show runStack
    (callStep .stretchBlt env.okStretchBlt
      (CEvent.blitPlain env.rcClient.right env.rcClient.bottom ::
        callStep .bitBlt env.okBitBlt [])) s6 = some s6
  refine runStack_callStep _ _ _ (fun s7 => ?_) s6
  show runStack (callStep .bitBlt env.okBitBlt []) s7 = some s7
  exact runStack_callStep .bitBlt env.okBitBlt [] (fun s8 => rfl) s7

/-- Claim C2: every captureScreen invocation releases each acquired
handle exactly once, in reverse order of acquisition (the trace obeys
the stack discipline and ends with no live handle), on every exit path
including aborts after any failed step; across any sequence of
invocations no capture-owned handle stays live; and on the all-success
path the five resources are acquired in source order and released in
exactly the reverse order. -/
theorem captureScreen_resources_balanced :
    (∀ env : CaptureEnv, runStack (captureScreen env) [] = some []) ∧
    (∀ envs : List CaptureEnv,
      runStack (List.flatten (envs.map captureScreen)) [] = some []) ∧
    (∀ (rc : Rect) (sw sh : Int),
      acquiresOf (captureScreen (allOkCaptureEnv rc sw sh)) =
        [Handle.hdcScreen, Handle.hdcWindow, Handle.hdcMemDC,
         Handle.hbmScreenshot, Handle.selectedState] ∧
      releasesOf (captureScreen (allOkCaptureEnv rc sw sh)) =
        [Handle.selectedState, Handle.hbmScreenshot, Handle.hdcMemDC,
         Handle.hdcWindow, Handle.hdcScreen]) := by
  refine ⟨fun env => runStack_captureScreen env [], ?_, ?_⟩
  · intro envs
    induction envs with
    | nil => rfl
    | cons e es ih =>
      simp only [List.map_cons, List.flatten_cons]
      rw [runStack_append, runStack_captureScreen]
      exact ih
  · intro rc sw sh
    exact ⟨rfl, rfl⟩

theorem capture_failed_eq_reports (env : CaptureEnv) :
    countFailed (captureScreen env) = countReports (captureScreen env) := by
  obtain ⟨o1, o2, o3, o4, rc, o5, o6, o7, o8, sw, sh⟩ := env
  cases o1 <;> cases o2 <;> cases o3 <;> cases o4 <;> cases o5 <;> cases o6 <;>
    cases o7 <;> cases o8 <;> rfl

theorem capture_no_bad_unchecked (env : CaptureEnv) :
    (captureScreen env).countP (fun e => isBadUnchecked e) = 0 := by
  obtain ⟨o1, o2, o3, o4, rc, o5, o6, o7, o8, sw, sh⟩ := env
  cases o1 <;> cases o2 <;> cases o3 <;> cases o4 <;> cases o5 <;> cases o6 <;>
    cases o7 <;> cases o8 <;> rfl

theorem paint_checked_failures_reported (env : PaintEnv) :
    (onPaint env).countP (fun e => isFailedCheckedPaint e) =
      countReports (onPaint env) := by
  obtain ⟨p1, p2, p3, p4⟩ := env
  cases p1 <;> cases p2 <;> cases p3 <;> cases p4 <;> rfl

/-- Claim C3, counterexample: FillRect (onPaint, line 118) can signal
failure through its return value, but the code ignores that value, so
a failing FillRect leaves one failed fallible call in the trace and no
diagnostic report at all. -/
theorem onPaint_fillRect_failure_unreported :
    countFailed (onPaint ⟨true, false, true, true⟩) = 1 ∧
    countReports (onPaint ⟨true, false, true, true⟩) = 0 :=
  ⟨rfl, rfl⟩

/-- Claim C3 (amended): within the capture operation every failing
fallible call is reported via the level-1 diagnostic trace (failed
calls and reports balance exactly on every oracle), and the only call
whose result is discarded there is SetStretchBltMode, which the code
deems to lack a sensible failure signal; in the paint handler the
macro-checked calls likewise report their failures, but the FillRect
return value is ignored (see the counterexample). -/
theorem capture_failures_reported :
    (∀ env : CaptureEnv,
      countFailed (captureScreen env) = countReports (captureScreen env)) ∧
    (∀ env : CaptureEnv,
      (captureScreen env).countP (fun e => isBadUnchecked e) = 0) ∧
    (∀ env : PaintEnv,
      (onPaint env).countP (fun e => isFailedCheckedPaint e) =
        countReports (onPaint env)) :=
  ⟨capture_failed_eq_reports, capture_no_bad_unchecked,
   paint_checked_failures_reported⟩

/-- Claim C4: every off-screen bitmap allocation performed by
captureScreen uses exactly the width and height of the client
rectangle queried just before it, and on the all-success oracle the
allocation and both copies execute for every client rectangle,
including one with zero area. -/
theorem captureScreen_bitmap_dims :
    (∀ (env : CaptureEnv) (w h : Int),
      CEvent.allocBitmap w h ∈ captureScreen env →
        w = rectWidth env.rcClient ∧ h = rectHeight env.rcClient) ∧
    (∀ (rc : Rect) (sw sh : Int),
      CEvent.allocBitmap (rectWidth rc) (rectHeight rc) ∈
          captureScreen (allOkCaptureEnv rc sw sh) ∧
      CEvent.blitStretch rc.right rc.bottom sw sh ∈
          captureScreen (allOkCaptureEnv rc sw sh) ∧
      CEvent.blitPlain rc.right rc.bottom ∈
          captureScreen (allOkCaptureEnv rc sw sh)) := by
  constructor
  · intro env w h hmem
    obtain ⟨o1, o2, o3, o4, rc, o5, o6, o7, o8, sw, sh⟩ := env
    cases o1 <;> cases o2 <;> cases o3 <;> cases o4 <;> cases o5 <;> cases o6 <;>
      cases o7 <;> cases o8 <;>
      simp only [captureScreen, acquireStep, callStep, Bool.if_true_left,
        if_true, if_false, List.mem_cons, List.mem_append,
        List.mem_singleton, List.not_mem_nil, or_false, false_or] at hmem <;>
      simp_all
  · intro rc sw sh
    refine ⟨?_, ?_, ?_⟩ <;>
      simp [captureScreen, acquireStep, callStep, allOkCaptureEnv]

theorem captureScreen_bitmap_dims_witness :
    (4 : Int) = rectWidth ⟨1, 2, 5, 9⟩ ∧ (7 : Int) = rectHeight ⟨1, 2, 5, 9⟩ :=
  captureScreen_bitmap_dims.1 (allOkCaptureEnv ⟨1, 2, 5, 9⟩ 800 600) 4 7
    (by decide)

/-- Claim C5: the hotkey handler ignores everything but the hotkey
identifier; the capture operation is invoked exactly for the id-1 (F5)
hotkey; the id-2 hotkey produces nothing beyond the level-2 log entry;
and window creation registers id 1 bound to F5 and id 2 bound to the
up arrow. -/
theorem onHotKey_dispatch :
    (∀ id fs vk fs2 vk2 : Int, onHotKey id fs vk = onHotKey id fs2 vk2) ∧
    (∀ id fs vk : Int,
      WEvent.invokeCapture ∈ onHotKey id fs vk ↔ id = HOTKEY_ID_F5) ∧
    (∀ fs vk : Int, onHotKey HOTKEY_ID_UP fs vk = [WEvent.traceCall 2]) ∧
    (handleMessage allOkMsgEnv ⟨[]⟩ Msg.wmCreate).2.2 =
      [WEvent.setIcon, WEvent.registerHotKey HOTKEY_ID_F5 VK_F5,
       WEvent.registerHotKey HOTKEY_ID_UP VK_UP] := by
  refine ⟨fun id fs vk fs2 vk2 => rfl, ?_, fun fs vk => rfl, rfl⟩
  intro id fs vk
  by_cases hid : id = HOTKEY_ID_F5 <;> simp [onHotKey, hid]

/-- Claim C6: a key-down event carrying the Q key is consumed by the
handler, which posts a close message; dispatching the queue that
results from it destroys the window (unregistering the hotkeys) and
posts the quit message, and the loop then exits with exit code 0, for
every accompanying lParam. -/
theorem quitKey_run_exits_zero :
    ∀ lParam : Int,
      (onKeyDown KEY_Q lParam).1 = true ∧
      WEvent.postMsg Msg.wmClose ∈
        (handleMessage allOkMsgEnv ⟨[1, 2]⟩ (Msg.wmKeyDown KEY_Q lParam)).2.2 ∧
      (runLoop allOkMsgEnv 5 ⟨[1, 2]⟩ [Msg.wmKeyDown KEY_Q lParam]).2.2 =
        some 0 ∧
      (runLoop allOkMsgEnv 5 ⟨[1, 2]⟩ [Msg.wmKeyDown KEY_Q lParam]).1 = ⟨[]⟩ ∧
      WEvent.destroyWindow ∈
        (runLoop allOkMsgEnv 5 ⟨[1, 2]⟩ [Msg.wmKeyDown KEY_Q lParam]).2.1 := by
  intro lParam
  refine ⟨rfl, ?_, rfl, rfl, ?_⟩ <;>
    simp [handleMessage, onKeyDown, KEY_Q, runLoop, dispatchOne, postedOf,
      isQuitMsg, allOkMsgEnv, HOTKEY_ID_F5, HOTKEY_ID_UP]

/-- Claim C7: the creation handler registers exactly hotkey ids 1 (F5)
and 2 (up arrow), and the destruction handler, run on the state the
creation handler produced, unregisters exactly those two ids in the
same one-to-one pairing, leaves no hotkey registered, and then posts
the quit message, with the quit signal after both unregistrations. -/
theorem destroy_unregisters_all :
    (handleMessage allOkMsgEnv ⟨[]⟩ Msg.wmCreate).1 =
      ⟨[HOTKEY_ID_F5, HOTKEY_ID_UP]⟩ ∧
    registrationsOf (handleMessage allOkMsgEnv ⟨[]⟩ Msg.wmCreate).2.2 =
      [(HOTKEY_ID_F5, VK_F5), (HOTKEY_ID_UP, VK_UP)] ∧
    (handleMessage allOkMsgEnv ⟨[HOTKEY_ID_F5, HOTKEY_ID_UP]⟩ Msg.wmDestroy).2.2 =
      [WEvent.traceCall 2, WEvent.unregisterHotKey HOTKEY_ID_F5,
       WEvent.unregisterHotKey HOTKEY_ID_UP, WEvent.postQuit 0] ∧
    (handleMessage allOkMsgEnv ⟨[HOTKEY_ID_F5, HOTKEY_ID_UP]⟩ Msg.wmDestroy).1 =
      ⟨[]⟩ ∧
    unregistrationsOf
        (handleMessage allOkMsgEnv ⟨[HOTKEY_ID_F5, HOTKEY_ID_UP]⟩
          Msg.wmDestroy).2.2 =
      (registrationsOf
        (handleMessage allOkMsgEnv ⟨[]⟩ Msg.wmCreate).2.2).map Prod.fst := by
  refine ⟨?_, rfl, ?_, ?_, rfl⟩ <;> decide

/-- Claim C8: a key-down event for any key other than Q, and any
message without a dedicated handler (including the close request), is
left unconsumed for default handling, with the window state unchanged
and no program action beyond the level-2 log of the key event. -/
theorem unhandled_messages_frame :
    ∀ (env : MsgEnv) (st : WindowState) (wParam lParam uMsg wp lp : Int),
      wParam ≠ KEY_Q →
      handleMessage env st (Msg.wmKeyDown wParam lParam) =
        (st, HandlerResult.fallthrough, [WEvent.traceCall 2]) ∧
      handleMessage env st (Msg.other uMsg wp lp) =
        (st, HandlerResult.fallthrough, []) ∧
      handleMessage env st Msg.wmClose =
        (st, HandlerResult.fallthrough, []) := by
  intro env st wParam lParam uMsg wp lp hw
  refine ⟨?_, rfl, rfl⟩
  simp [handleMessage, onKeyDown, hw]

theorem unhandled_messages_frame_witness :
    handleMessage allOkMsgEnv ⟨[1, 2]⟩ (Msg.wmKeyDown 65 0) =
      (⟨[1, 2]⟩, HandlerResult.fallthrough, [WEvent.traceCall 2]) ∧
    handleMessage allOkMsgEnv ⟨[1, 2]⟩ (Msg.other 1025 0 0) =
      (⟨[1, 2]⟩, HandlerResult.fallthrough, []) ∧
    handleMessage allOkMsgEnv ⟨[1, 2]⟩ Msg.wmClose =
      (⟨[1, 2]⟩, HandlerResult.fallthrough, []) :=
  unhandled_messages_frame allOkMsgEnv ⟨[1, 2]⟩ 65 0 1025 0 0 (by decide)

/-- Claim C9: the entry point returns exit code zero on every
termination path: the loop skeleton yields 0 for every sequence of
GetMessage results, in particular when GetMessage signals an error
with -1, and the modelled message loop never exits with any code other
than 0. -/
theorem exit_code_always_zero :
    (∀ results : List Int, wWinMainExitCode results = 0) ∧
    (∀ rest : List Int, wWinMainExitCode (-1 :: rest) = 0) ∧
    (∀ (env : MsgEnv) (fuel : Nat) (st : WindowState) (q : List Msg) (c : Int),
      (runLoop env fuel st q).2.2 = some c → c = 0) := by
  have h1 : ∀ results : List Int, wWinMainExitCode results = 0 := by
    intro results
    induction results with
    | nil => rfl
    | cons r rest ih =>
      rw [wWinMainExitCode]
      by_cases hr : 0 < r
      · rw [if_pos hr]; exact ih
      · rw [if_neg hr]
  refine ⟨h1, fun rest => h1 _, ?_⟩
  intro env fuel
  induction fuel with
  | zero =>
    intro st q c h
    simp [runLoop] at h
  | succ fuel ih =>
    intro st q c h
    cases q with
    | nil => simp [runLoop] at h
    | cons m rest =>
      by_cases hq : isQuitMsg m
      · rw [runLoop, if_pos hq] at h
        simp at h
        omega
      · rw [runLoop, if_neg hq] at h
        exact ih _ _ c h

theorem exit_code_always_zero_witness :
    wWinMainExitCode [3, -1] = 0 ∧ wWinMainExitCode [-1] = 0 ∧ (0 : Int) = 0 :=
  ⟨exit_code_always_zero.1 [3, -1], exit_code_always_zero.2.1 [],
   exit_code_always_zero.2.2 allOkMsgEnv 1 ⟨[]⟩ [Msg.wmQuit 0] 0 (by decide)⟩

theorem nonpositive_trace_silent_witness :
    tracingLevelFor (some ['a', 'b', 'c']) = atoi ['a', 'b', 'c'] ∧
    traceEmits (tracingLevelFor (some ['a', 'b', 'c'])) 1 = false ∧
    atoi ['z'] = 0 :=
  ⟨(nonpositive_trace_silent.1 ['a', 'b', 'c'] (by decide)).1,
   (nonpositive_trace_silent.1 ['a', 'b', 'c'] (by decide)).2 1 (by decide),
   nonpositive_trace_silent.2 ['z'] (by decide)⟩

end GameTodoList
